import Mathlib

/-!
Verification of the vswhere-rs repository (src/lib.rs, src/args.rs, src/selection.rs)
against its natural-language specification.

The repository is a typed front end for the `vswhere` command-line tool:
it encodes a structured query into command-line tokens, locates and invokes
the executable, and decodes its JSON output into typed records.

This file shallowly embeds the relevant Rust code.  External collaborators
(process spawning, the serde JSON engine, `str::from_utf8`) are taken as
function parameters; standard-library primitives used by the code
(`str::split`, `u16::from_str_radix`, decimal `Display` of integers) are
modelled by executable Lean functions defined below.
-/

namespace VswhereRs

/-! ## Decimal rendering and parsing: models of Rust's integer `Display` and
`u16::from_str_radix(chunk, 10)` -/

/-- Little-endian decimal digits of `n`, with structural fuel so that the kernel
can evaluate it.  Agrees with `Nat.digits 10 n` whenever `n ≤ fuel`. -/
def decDigitsRev (fuel : Nat) (n : Nat) : List Nat :=
  match fuel with
  | 0 => []
  | fuel + 1 => if n = 0 then [] else n % 10 :: decDigitsRev fuel (n / 10)

/-- The character for a single decimal digit value. -/
def digitChar (d : Nat) : Char := Char.ofNat (48 + d)

/-- Model of Rust's decimal `Display` for an unsigned integer: the usual
base-10 rendering, most significant digit first, `0` rendered as `"0"`. -/
def decChars (n : Nat) : List Char :=
  if n = 0 then ['0'] else ((decDigitsRev n n).map digitChar).reverse

/-- Strips the optional leading `'+'` sign accepted by `from_str_radix`
(a `'-'` is not stripped: for an unsigned target it is an invalid digit). -/
def stripPlus (l : List Char) : List Char :=
  match l with
  | [] => []
  | c :: rest => if c = '+' then rest else c :: rest

/-- Model of Rust's `u16::from_str_radix(chunk, 10)` minus the width check
(see `decParseU16`): an optional leading `'+'`, then one or more decimal
digits; anything else (empty input, a `'-'` sign, a non-digit) is an error. -/
def decParse (l : List Char) : Option Nat :=
  let l' := stripPlus l
  if l'.isEmpty then none
  else if l'.all (fun c => c.isDigit) then
    some (l'.foldl (fun a c => 10 * a + (c.toNat - 48)) 0)
  else none

/-- Model of Rust's `u16::from_str_radix(chunk, 10)`: decimal parse that also
fails when the value overflows 16 bits. -/
def decParseU16 (l : List Char) : Option Nat :=
  match decParse l with
  | some n => if n < 65536 then some n else none
  | none => none

/-! ## `str::split('.')`: model of the Rust string-split iterator -/

/-- Model of Rust's `str::split(sep)`: splits into the (possibly empty) chunks
between occurrences of `sep`.  Always returns at least one chunk. -/
def splitOnChar (sep : Char) : List Char → List (List Char)
  | [] => [[]]
  | c :: cs =>
    if c = sep then [] :: splitOnChar sep cs
    else
      match splitOnChar sep cs with
      | [] => [[c]]
      | p :: ps => (c :: p) :: ps

/-- Joins chunks with a single separator character between consecutive chunks
(the inverse of `splitOnChar` on separator-free chunks). -/
def joinSep (sep : Char) : List (List Char) → List Char
  | [] => []
  | [p] => p
  | p :: ps => p ++ sep :: joinSep sep ps

/-! ## `FourPointVersion` (src/lib.rs lines 31-38, 150-238)

Rust's fields are `u16`; we model them as `Nat` (the deserializer below
enforces the `< 65536` bound exactly where the Rust code does). -/

/-- A version number that consists of four integers (src/lib.rs line 33). -/
structure FourPointVersion where
  major : Nat
  minor : Nat
  revision : Nat
  build : Nat
deriving DecidableEq, Repr

/-- Model of `<FourPointVersion as Display>::fmt` (src/lib.rs lines 224-232):
`"{major}.{minor}.{revision}.{build}"`. -/
def fpvFmt (v : FourPointVersion) : List Char :=
  decChars v.major ++ '.' :: decChars v.minor ++ '.' :: decChars v.revision
    ++ '.' :: decChars v.build

/-- Model of `FourPointVersion::deserialize`'s string visitor
(src/lib.rs lines 196-217): split on `'.'`, reject a segment count outside
`1..=4`, parse each segment with `u16::from_str_radix(_, 10)`, and draw
missing trailing segments from `iter::repeat("0")`. -/
def fpvParse (l : List Char) : Option FourPointVersion :=
  let parts := splitOnChar '.' l
  if parts.length < 1 ∨ 4 < parts.length then none
  else
    (decParseU16 (parts.getD 0 ['0'])).bind fun a =>
    (decParseU16 (parts.getD 1 ['0'])).bind fun b =>
    (decParseU16 (parts.getD 2 ['0'])).bind fun c =>
    (decParseU16 (parts.getD 3 ['0'])).bind fun d =>
    some ⟨a, b, c, d⟩

/-- `fpvParse` on a `String`. -/
def fpvParseS (s : String) : Option FourPointVersion := fpvParse s.toList

/-- `fpvFmt` as a `String`. -/
def fpvFmtS (v : FourPointVersion) : String := (fpvFmt v).asString

/-- The dotted string whose segments are the canonical decimal renderings of
`segs` (e.g. `[16, 0] ↦ "16.0"`). -/
def strOfSegs (segs : List Nat) : List Char := joinSep '.' (segs.map decChars)

/-- Pads a 1-to-4 element segment list with trailing zeros into a
`FourPointVersion`, mirroring the `iter.chain(iter::repeat("0"))` padding. -/
def padFPV (segs : List Nat) : FourPointVersion :=
  ⟨segs.getD 0 0, segs.getD 1 0, segs.getD 2 0, segs.getD 3 0⟩

/-- The four padded segment values as a list. -/
def padSegs4 (segs : List Nat) : List Nat :=
  [segs.getD 0 0, segs.getD 1 0, segs.getD 2 0, segs.getD 3 0]

/-! ## Argument encoders (src/args.rs)

Each Rust `populate_args` pushes tokens onto a collector; we embed each
encoder as the list of tokens it appends, in order. -/

/-- `All(pub bool)` (src/args.rs line 80). -/
structure All where
  v : Bool
deriving DecidableEq, Repr

/-- `<All as PopulateArgs>::populate_args` (src/args.rs lines 88-94). -/
def All.populate_args (a : All) : List String :=
  if a.v then ["-all"] else []

/-- `Prerelease(pub bool)` (src/args.rs line 100). -/
structure Prerelease where
  v : Bool
deriving DecidableEq, Repr

/-- `<Prerelease as PopulateArgs>::populate_args` (src/args.rs lines 108-114). -/
def Prerelease.populate_args (p : Prerelease) : List String :=
  if p.v then ["-prerelease"] else []

/-- `Products(pub &[&str])` (src/args.rs line 120). -/
structure Products where
  v : List String
deriving DecidableEq, Repr

/-- `<Products as PopulateArgs>::populate_args` (src/args.rs lines 128-135):
if the slice is non-empty, push `"-products"` then every element in order. -/
def Products.populate_args (p : Products) : List String :=
  if p.v.isEmpty then [] else "-products" :: p.v

/-- `Requires(pub &[&str])` (src/args.rs line 141). -/
structure Requires where
  v : List String
deriving DecidableEq, Repr

/-- `<Requires as PopulateArgs>::populate_args` (src/args.rs lines 149-156). -/
def Requires.populate_args (r : Requires) : List String :=
  if r.v.isEmpty then [] else "-requires" :: r.v

/-- `RequiresAny(pub bool)` (src/args.rs line 162). -/
structure RequiresAny where
  v : Bool
deriving DecidableEq, Repr

/-- `<RequiresAny as PopulateArgs>::populate_args` (src/args.rs lines 170-176). -/
def RequiresAny.populate_args (r : RequiresAny) : List String :=
  if r.v then ["-requiresAny"] else []

/-- `VersionRange` (src/args.rs lines 180-184).  The bound type `crate::Version`
is not among the source files; modelled from the spec: the spec's VersionValue
("four unsigned 16-bit fields", canonical form `"{major}.{minor}.{revision}.{build}"`)
coincides with `FourPointVersion` from src/lib.rs, so we use that type. -/
structure VersionRange where
  lower : Option FourPointVersion
  upper : Option FourPointVersion
deriving DecidableEq, Repr

/-- Model of `<VersionRange as Display>::fmt` (src/args.rs lines 195-204):
both bounds present → `"{lower},{upper}"`; only lower → `"{lower},"`;
only upper → `",{upper}"`; neither → the empty string. -/
def VersionRange.fmtChars (r : VersionRange) : List Char :=
  match r.lower, r.upper with
  | some l, some u => fpvFmt l ++ ',' :: fpvFmt u
  | some l, none => fpvFmt l ++ [',']
  | none, some u => ',' :: fpvFmt u
  | none, none => []

/-- Model of `<VersionRange as PopulateArgs>::populate_args`
(src/args.rs lines 206-221): format into a buffer, and if the formatted text
is non-empty push the two tokens `"-version"` and the text. -/
def VersionRange.populate_args (r : VersionRange) : List String :=
  let s := r.fmtChars
  if s = [] then [] else ["-version", s.asString]

/-! ## `Modern` selection (src/selection.rs lines 18-122) -/

/-- Selection parameters for modern (side-by-side installable) instances
(src/selection.rs lines 20-27). -/
structure Modern where
  all : All
  prerelease : Prerelease
  products : Products
  requires : Requires
  requires_any : RequiresAny
  version : VersionRange
deriving DecidableEq, Repr

/-- `Modern::new` (src/selection.rs lines 31-40). -/
def Modern.new : Modern :=
  ⟨⟨false⟩, ⟨false⟩, ⟨[]⟩, ⟨[]⟩, ⟨false⟩, ⟨none, none⟩⟩

/-- `<Modern as PopulateArgs>::populate_args` (src/selection.rs lines 112-122):
delegates to the owned encoders in the order written in the source:
`all`, `prerelease`, `requires_any`, `products`, `requires`, `version`. -/
def Modern.populate_args (m : Modern) : List String :=
  m.all.populate_args ++ m.prerelease.populate_args
    ++ m.requires_any.populate_args ++ m.products.populate_args
    ++ m.requires.populate_args ++ m.version.populate_args

/-! ## `Config` and its invocation (src/lib.rs lines 40-49, 240-419) -/

/-- Builder-style configuration for a vswhere instance (src/lib.rs lines 42-49).
`version: Option<Range<FourPointVersion>>` is modelled as an optional
(start, end) pair. -/
structure Config where
  prerelease : Bool
  products : List String
  requires : List String
  requires_any : Bool
  version : Option (FourPointVersion × FourPointVersion)
  latest : Bool
deriving DecidableEq, Repr

/-- `Config::new` (src/lib.rs lines 242-251). -/
def Config.new : Config :=
  ⟨false, [], [], false, none, false⟩

/-- The argv that `Config::run_custom_path` (src/lib.rs lines 385-418) hands to
the spawned process, token by token in the order the source pushes them:
`-prerelease` if set; always `-products` followed by the whitelist or `*` when
the whitelist is empty; `-requires` plus the component whitelist when non-empty;
`-requiresAny` if set; `-version "[start,end)"` when a range is set; `-latest`
if set; and finally the fixed `-format json -utf8`. -/
def Config.args (c : Config) : List String :=
  (if c.prerelease then ["-prerelease"] else [])
    ++ "-products" :: (if c.products.isEmpty then ["*"] else c.products)
    ++ (if c.requires.isEmpty then [] else "-requires" :: c.requires)
    ++ (if c.requires_any then ["-requiresAny"] else [])
    ++ (match c.version with
        | some (s, e) => ["-version",
            ('[' :: fpvFmt s ++ ',' :: fpvFmt e ++ [')']).asString]
        | none => [])
    ++ (if c.latest then ["-latest"] else [])
    ++ ["-format", "json", "-utf8"]

/-! ## Result decoding (src/lib.rs lines 411-417)

`run_custom_path` ends with
`.output().map(|output| { assert!(output.status.success()); ... })`:
on a non-zero exit status the closure panics via `assert!`; on invalid UTF-8
or invalid JSON it panics via `expect`.  The embedding makes the possible
panics explicit as an outcome constructor. -/

/-- Error kinds of `std::io::Error` that the code inspects. -/
inductive IoErrorKind where
  | notFound
  | permissionDenied
  | other (tag : Nat)
deriving DecidableEq, Repr

/-- Model of `std::io::Error`: a kind plus a tag distinguishing distinct errors. -/
structure IoError where
  kind : IoErrorKind
  tag : Nat
deriving DecidableEq, Repr

/-- What a call observably does in the embedding: return a value, return an
`io::Error` (the only error type in `run_custom_path`'s signature), or panic. -/
inductive RunResult (α : Type) where
  | ok (value : α)
  | ioError (e : IoError)
  | panicked (msg : String)
deriving DecidableEq, Repr

/-- `true` iff the outcome is an error value returned to the caller. -/
def RunResult.isErrValue : RunResult α → Bool
  | .ioError _ => true
  | _ => false

/-- `true` iff the outcome is a panic. -/
def RunResult.isPanicked : RunResult α → Bool
  | .panicked _ => true
  | _ => false

/-- Model of `std::process::Output` as captured by `.output()`: the exit code
(`status.success()` is `code = 0`) and the raw stdout bytes. -/
structure ProcessOutput where
  exitCode : Int
  stdout : List Nat
deriving DecidableEq, Repr

/-- Placeholder for the decoded record type; the claims below treat the JSON
decoder as an opaque collaborator, so only the shape of the result matters. -/
structure InstallProperties where
  campaignId : String
  channelManifestId : String
  nickname : String
  setupEngineFilePath : String
deriving DecidableEq, Repr

/-- Model of `semver::Version` (an external crate type): the parts of a
semantic version. -/
structure SemanticVersion where
  major : Nat
  minor : Nat
  patch : Nat
  pre : String
  buildMeta : String
deriving DecidableEq, Repr

/-- Catalog information for a Visual Studio installation
(src/lib.rs lines 76-99).  Field names follow the JSON keys produced by
`#[serde(rename_all = "camelCase")]`; `PathBuf` and `Url` fields are carried
as strings, `DateTime<Utc>` fields as their RFC 3339 text. -/
structure InstallCatalog where
  buildBranch : String
  buildVersion : FourPointVersion
  id : String
  localBuild : String
  manifestName : String
  manifestType : String
  productDisplayVersion : String
  productLine : String
  productLineVersion : String
  productMilestone : String
  productMilestoneIsPreRelease : Bool
  productName : String
  productPatchVersion : String
  productPreReleaseMilestoneSuffix : String
  productRelease : Option String
  productSemanticVersion : SemanticVersion
  requiredEngineVersion : FourPointVersion
deriving DecidableEq, Repr

/-- Information about a Visual Studio installation (src/lib.rs lines 51-74). -/
structure InstallInfo where
  instanceId : String
  installDate : String
  installationName : String
  installationPath : String
  installationVersion : FourPointVersion
  productId : String
  productPath : String
  isPrerelease : Bool
  displayName : String
  description : String
  channelId : String
  channelPath : Option String
  channelUri : String
  enginePath : String
  releaseNotes : String
  thirdPartyNotices : String
  updateDate : String
  catalog : InstallCatalog
  properties : InstallProperties
deriving DecidableEq, Repr

/-- Model of the closure at src/lib.rs lines 413-417, applied to the captured
process output.  `utf8Decode` stands for `str::from_utf8` and `parseInstalls`
for `serde_json::from_str::<Vec<InstallInfo>>`, both external collaborators.
The source runs, in order: `assert!(output.status.success())`, then
`str::from_utf8(..).expect("vswhere returned invalid UTF-8")`, then
`serde_json::from_str(..).expect("vswhere returned invalid JSON")`. -/
def processVswhereOutput (utf8Decode : List Nat → Option String)
    (parseInstalls : String → Option (List InstallInfo))
    (out : ProcessOutput) : RunResult (List InstallInfo) :=
  if out.exitCode = 0 then
    match utf8Decode out.stdout with
    | some json =>
      match parseInstalls json with
      | some installs => .ok installs
      | none => .panicked "vswhere returned invalid JSON"
    | none => .panicked "vswhere returned invalid UTF-8"
  else .panicked "assertion failed: output.status.success()"

/-- Model of the tail of `Config::run_custom_path` (src/lib.rs lines 411-418):
a spawn failure from `.output()` propagates as the `io::Error` value, and a
captured output goes through the closure modelled by `processVswhereOutput`. -/
def run_custom_path_result (utf8Decode : List Nat → Option String)
    (parseInstalls : String → Option (List InstallInfo))
    (spawn : Except IoError ProcessOutput) : RunResult (List InstallInfo) :=
  match spawn with
  | .error e => .ioError e
  | .ok out => processVswhereOutput utf8Decode parseInstalls out

/-- A UTF-8 decoding collaborator used at concrete inputs: decodes pure-ASCII
byte sequences (on which it agrees with `str::from_utf8`) and reports failure
otherwise. -/
def utf8AsciiDecode (bytes : List Nat) : Option String :=
  if bytes.all (fun b => b < 128) then some (String.mk (bytes.map Char.ofNat))
  else none

/-- A JSON collaborator used at concrete non-JSON inputs, on which
`serde_json::from_str` fails. -/
def parseInstallsNone : String → Option (List InstallInfo) := fun _ => none

/-! ## Discovery (src/lib.rs lines 330-380) -/

/-- The two `SHGetKnownFolderPath` ids the code resolves. -/
inductive KnownFolderId where
  | programData
  | programFilesX86
deriving DecidableEq, Repr

/-- The first candidate executable location (src/lib.rs lines 369-370). -/
def chocoPath (base : String) : String :=
  base ++ "\\chocolatey\\bin\\vswhere.exe"

/-- The second candidate executable location (src/lib.rs line 374). -/
def installerPath (base : String) : String :=
  base ++ "\\Microsoft Visual Studio\\Installer\\vswhere.exe"

/-- Model of `Config::run_default_path` (src/lib.rs lines 369-380), with the
known-folder resolution capability and the per-path invocation
(`self.run_custom_path`) abstracted as function parameters:
resolve `[ProgramData]`, run the chocolatey candidate; on an error of kind
`NotFound` resolve `[ProgramFilesX86]` and run the installer candidate;
any other error is returned as is. -/
def run_default_path {R : Type}
    (getKnownFolder : KnownFolderId → Except IoError String)
    (runAtPath : String → Except IoError R) : Except IoError R :=
  match getKnownFolder .programData with
  | .error e => .error e
  | .ok base =>
    match runAtPath (chocoPath base) with
    | .ok v => .ok v
    | .error e =>
      if e.kind = IoErrorKind.notFound then
        match getKnownFolder .programFilesX86 with
        | .error e2 => .error e2
        | .ok base2 => runAtPath (installerPath base2)
      else .error e

/-! ## String-encoded booleans (src/lib.rs lines 111-148) -/

/-- Model of Rust's `str::trim`: drop whitespace from both ends.
`Char.isWhitespace` covers the ASCII whitespace characters, an approximation
of Rust's Unicode `White_Space` set that agrees with it on all inputs the
claims exercise. -/
def trimChars (l : List Char) : List Char :=
  ((l.dropWhile Char.isWhitespace).reverse.dropWhile Char.isWhitespace).reverse

/-- The comparison key computed by `deserialize_uppercase_bool`
(src/lib.rs lines 123-125): `v.to_lowercase()` followed by `.trim()`. -/
def lowerTrim (s : String) : List Char :=
  trimChars (s.toList.map Char.toLower)

/-- Model of `deserialize_uppercase_bool`'s string visitor
(src/lib.rs lines 123-133): lowercase the string, trim it, and accept exactly
`"true"` and `"false"`; any other string is an `invalid_value` error (`none`). -/
def uppercaseBoolParse (s : String) : Option Bool :=
  let lt := lowerTrim s
  if lt = "true".toList then some true
  else if lt = "false".toList then some false
  else none

/-- Model of `serialize_uppercase_bool` (src/lib.rs lines 139-148). -/
def serializeUppercaseBool (b : Bool) : String :=
  if b then "True" else "False"

/-- A JSON scalar as relevant to boolean-valued record fields: the wire value
a field position may carry. -/
inductive JsonScalar where
  | jbool (b : Bool)
  | jstring (s : String)
  | jnull
deriving DecidableEq, Repr

/-- Model of serde's derived `bool` field deserialization, as used for
`InstallInfo.is_prerelease` (src/lib.rs line 62, under plain
`#[derive(Deserialize)]` with no custom `deserialize_with`): only a native
JSON boolean is accepted; a JSON string or null is an invalid-type error. -/
def deserializePlainBool : JsonScalar → Option Bool
  | .jbool b => some b
  | _ => none

/-- Model of the field-level decode through `deserialize_uppercase_bool`, the
`deserialize_with` function attached only to
`InstallCatalog.product_milestone_is_pre_release` (src/lib.rs lines 90-92):
`deserializer.deserialize_str(UppercaseBoolVisitor)` errors on any non-string
wire value (the visitor implements only `visit_str`), and a string goes
through the lowercase-trim comparison modelled by `uppercaseBoolParse`. -/
def deserializeUppercaseBoolField : JsonScalar → Option Bool
  | .jstring s => uppercaseBoolParse s
  | _ => none

/-! ## The `InstallCatalog::product_milestone_is_pre_release` accessor
(src/lib.rs lines 576-579) -/

/-- The observable behaviour of an accessor: a returned value or a panic. -/
inductive PanicOr (α : Type) where
  | value (v : α)
  | panicked (msg : String)
deriving DecidableEq, Repr

/-- Model of `InstallCatalog::product_milestone_is_pre_release`
(src/lib.rs lines 577-579): the body is `unimplemented!()`, so the accessor
panics unconditionally instead of reading the stored field. -/
def InstallCatalog.product_milestone_is_pre_release (_ : InstallCatalog) :
    PanicOr Bool :=
  .panicked "not implemented"

/-! ## Concrete collaborator doubles for discovery witnesses -/

/-- A known-folder resolver double: both folders resolve. -/
def gkfBothOk : KnownFolderId → Except IoError String := fun id =>
  match id with
  | .programData => .ok "C:\\ProgramData"
  | .programFilesX86 => .ok "C:\\Program Files (x86)"

/-- An invocation double: the chocolatey candidate is missing (`NotFound`),
the installer candidate succeeds with the value `7`. -/
def runSecondOk : String → Except IoError Nat := fun p =>
  if p = chocoPath "C:\\ProgramData" then .error ⟨IoErrorKind.notFound, 0⟩
  else .ok 7

/-! ## Lemmas about the decimal model -/

/-- With enough fuel, `decDigitsRev` computes `Nat.digits 10`. -/
theorem decDigitsRev_eq_digits (fuel : Nat) :
    ∀ n, n ≤ fuel → decDigitsRev fuel n = Nat.digits 10 n := by
  induction fuel with
  | zero =>
    intro n hn
    interval_cases n
    simp [decDigitsRev]
  | succ fuel ih =>
    intro n hn
    by_cases h0 : n = 0
    · simp [decDigitsRev, h0]
    · have hlt : n / 10 < n := Nat.div_lt_self (Nat.pos_of_ne_zero h0) (by omega)
      have : decDigitsRev fuel (n / 10) = Nat.digits 10 (n / 10) :=
        ih (n / 10) (by omega)
      rw [decDigitsRev, if_neg h0, this,
        Nat.digits_def' (by omega) (Nat.pos_of_ne_zero h0)]

/-- For a digit value, `digitChar` produces a decimal digit character. -/
theorem digitChar_isDigit {d : Nat} (hd : d < 10) : (digitChar d).isDigit = true := by
  interval_cases d <;> decide

/-- For a digit value, the code point of `digitChar d` is `48 + d`. -/
theorem digitChar_toNat {d : Nat} (hd : d < 10) : (digitChar d).toNat = 48 + d := by
  interval_cases d <;> decide

/-- Every character of `decChars n` is a decimal digit. -/
theorem decChars_all_digit {n : Nat} {c : Char} (hc : c ∈ decChars n) :
    c.isDigit = true := by
  unfold decChars at hc
  by_cases h0 : n = 0
  · simp [h0] at hc
    simp [hc]
  · rw [if_neg h0, decDigitsRev_eq_digits n n le_rfl] at hc
    rw [List.mem_reverse, List.mem_map] at hc
    obtain ⟨d, hd, rfl⟩ := hc
    exact digitChar_isDigit (Nat.digits_lt_base (by omega) hd)

/-- `decChars` never produces the empty list. -/
theorem decChars_ne_nil (n : Nat) : decChars n ≠ [] := by
  unfold decChars
  by_cases h0 : n = 0
  · simp [h0]
  · rw [if_neg h0, decDigitsRev_eq_digits n n le_rfl]
    simp [Nat.digits_ne_nil_iff_ne_zero.mpr h0]

/-- The big-endian digit fold used by `decParse` computes `Nat.ofDigits` of the
little-endian digit list. -/
theorem foldl_digitChars_eq_ofDigits :
    ∀ ds : List Nat, (∀ d ∈ ds, d < 10) →
      ((ds.map digitChar).reverse.foldl (fun a c => 10 * a + (c.toNat - 48)) 0)
        = Nat.ofDigits 10 ds := by
  intro ds
  induction ds with
  | nil => intro _; simp [Nat.ofDigits_nil]
  | cons d ds ih =>
    intro h
    have hd : d < 10 := h d (by simp)
    have hds : ∀ x ∈ ds, x < 10 := fun x hx => h x (by simp [hx])
    rw [List.map_cons, List.reverse_cons, List.foldl_append, ih hds,
      Nat.ofDigits_cons]
    simp [List.foldl, digitChar_toNat hd]
    omega

/-- `stripPlus` is the identity on non-empty all-digit inputs. -/
theorem stripPlus_of_digits {l : List Char} (hne : l ≠ [])
    (hdig : ∀ c ∈ l, c.isDigit = true) : stripPlus l = l := by
  match l with
  | [] => exact absurd rfl hne
  | c :: t =>
    have : c.isDigit = true := hdig c (by simp)
    have hc : c ≠ '+' := by
      intro h
      rw [h] at this
      simp at this
    simp [stripPlus, hc]

/-- Round trip: the decimal parse model inverts the decimal rendering model. -/
theorem decParse_decChars (n : Nat) : decParse (decChars n) = some n := by
  by_cases h0 : n = 0
  · subst h0; decide
  · have hne : decChars n ≠ [] := decChars_ne_nil n
    have hdig : ∀ c ∈ decChars n, c.isDigit = true := fun c hc => decChars_all_digit hc
    unfold decParse
    rw [stripPlus_of_digits hne hdig]
    rw [if_neg (by simp [List.isEmpty_iff, hne])]
    rw [if_pos (List.all_eq_true.mpr hdig)]
    have hchars : decChars n = ((Nat.digits 10 n).map digitChar).reverse := by
      unfold decChars
      rw [if_neg h0, decDigitsRev_eq_digits n n le_rfl]
    rw [hchars, foldl_digitChars_eq_ofDigits (Nat.digits 10 n)
      (fun d hd => Nat.digits_lt_base (by omega) hd), Nat.ofDigits_digits]

/-- In-range round trip through the 16-bit parser. -/
theorem decParseU16_decChars {n : Nat} (h : n < 65536) :
    decParseU16 (decChars n) = some n := by
  unfold decParseU16
  rw [decParse_decChars]
  simp [h]

/-- Out-of-range values are rejected by the 16-bit parser. -/
theorem decParseU16_decChars_overflow {n : Nat} (h : 65536 ≤ n) :
    decParseU16 (decChars n) = none := by
  unfold decParseU16
  rw [decParse_decChars]
  simp [show ¬n < 65536 by omega]

/-- A chunk containing a `'-'` is rejected by the decimal parser. -/
theorem decParse_of_mem_dash {l : List Char} (h : '-' ∈ l) : decParse l = none := by
  have hdash : ('-' : Char).isDigit = false := by decide
  have hmem : '-' ∈ stripPlus l := by
    match l with
    | [] => simp at h
    | c :: t =>
      by_cases hc : c = '+'
      · subst hc
        rcases List.mem_cons.mp h with h1 | h1
        · exact absurd h1 (by decide)
        · simpa [stripPlus] using h1
      · simpa [stripPlus, hc] using h
  unfold decParse
  by_cases he : (stripPlus l).isEmpty
  · rw [if_pos he]
  · rw [if_neg he, if_neg]
    intro hall
    have := List.all_eq_true.mp hall '-' hmem
    simp [hdash] at this

/-- A chunk containing a `'-'` is rejected by the 16-bit parser. -/
theorem decParseU16_of_mem_dash {l : List Char} (h : '-' ∈ l) :
    decParseU16 l = none := by
  unfold decParseU16
  rw [decParse_of_mem_dash h]

/-! ## Lemmas about `splitOnChar` -/

/-- `splitOnChar` always yields at least one chunk, like Rust's `str::split`. -/
theorem splitOnChar_ne_nil (sep : Char) : ∀ l, splitOnChar sep l ≠ [] := by
  intro l
  induction l with
  | nil => simp [splitOnChar]
  | cons c cs ih =>
    unfold splitOnChar
    by_cases hc : c = sep
    · simp [hc]
    · rw [if_neg hc]
      match hsp : splitOnChar sep cs with
      | [] => exact absurd hsp ih
      | p :: ps => simp

/-- A separator-free list is split into a single chunk. -/
theorem splitOnChar_of_not_mem {sep : Char} :
    ∀ {l : List Char}, sep ∉ l → splitOnChar sep l = [l] := by
  intro l
  induction l with
  | nil => intro _; rfl
  | cons c cs ih =>
    intro hmem
    have hc : c ≠ sep := fun h => hmem (by simp [h])
    have hcs : sep ∉ cs := fun h => hmem (by simp [h])
    unfold splitOnChar
    rw [if_neg hc, ih hcs]

/-- Splitting a separator-free chunk followed by a separator peels the chunk. -/
theorem splitOnChar_chunk_sep {sep : Char} :
    ∀ {p : List Char}, sep ∉ p → ∀ rest,
      splitOnChar sep (p ++ sep :: rest) = p :: splitOnChar sep rest := by
  intro p
  induction p with
  | nil =>
    intro _ rest
    simp [splitOnChar]
  | cons c cs ih =>
    intro hmem rest
    have hc : c ≠ sep := fun h => hmem (by simp [h])
    have hcs : sep ∉ cs := fun h => hmem (by simp [h])
    have hstep : splitOnChar sep (cs ++ sep :: rest) = cs :: splitOnChar sep rest :=
      ih hcs rest
    rw [List.cons_append]
    conv_lhs => rw [splitOnChar]
    rw [if_neg hc, hstep]

/-- `splitOnChar` inverts `joinSep` on non-empty lists of separator-free chunks. -/
theorem splitOnChar_joinSep {sep : Char} :
    ∀ {parts : List (List Char)}, parts ≠ [] → (∀ p ∈ parts, sep ∉ p) →
      splitOnChar sep (joinSep sep parts) = parts := by
  intro parts
  induction parts with
  | nil => intro h _; exact absurd rfl h
  | cons p ps ih =>
    intro _ hfree
    have hp : sep ∉ p := hfree p (by simp)
    match ps with
    | [] => exact splitOnChar_of_not_mem hp
    | q :: qs =>
      have hps : ∀ x ∈ q :: qs, sep ∉ x := fun x hx => hfree x (by simp [hx])
      rw [joinSep, splitOnChar_chunk_sep hp, ih (List.cons_ne_nil q qs) hps]
      exact List.cons_ne_nil q qs

/-! ## Lemmas about `List.getD` -/

/-- `getD` commutes with `map` when the default is the image of a default. -/
theorem getD_map {α β : Type} (f : α → β) :
    ∀ (l : List α) (i : Nat) (d : α), (l.map f).getD i (f d) = f (l.getD i d) := by
  intro l
  induction l with
  | nil => intro i d; simp
  | cons x xs ih =>
    intro i d
    match i with
    | 0 => simp
    | i + 1 => simp [ih]

/-- An indexed lookup with default is either a member or the default. -/
theorem getD_mem_or {α : Type} :
    ∀ (l : List α) (i : Nat) (d : α), l.getD i d ∈ l ∨ l.getD i d = d := by
  intro l
  induction l with
  | nil => intro i d; simp
  | cons x xs ih =>
    intro i d
    match i with
    | 0 =>
      rw [List.getD_cons_zero]
      exact Or.inl (by simp)
    | i + 1 =>
      rw [List.getD_cons_succ]
      rcases ih i d with h | h
      · exact Or.inl (List.mem_cons_of_mem x h)
      · exact Or.inr h

/-! ## Lemmas about `fpvParse` -/

/-- The padded segment values stay within 16 bits. -/
theorem padSeg_lt {segs : List Nat} (h3 : ∀ n ∈ segs, n < 65536) (i : Nat) :
    segs.getD i 0 < 65536 := by
  rcases getD_mem_or segs i 0 with h | h
  · exact h3 _ h
  · rw [h]; omega

/-- Parsing the dotted join of 1-to-4 in-range canonically rendered segments
succeeds with the zero-padded version value. -/
theorem fpvParse_strOfSegs {segs : List Nat} (h1 : segs ≠ []) (h2 : segs.length ≤ 4)
    (h3 : ∀ n ∈ segs, n < 65536) :
    fpvParse (strOfSegs segs) = some (padFPV segs) := by
  have hfree : ∀ p ∈ segs.map decChars, ('.' : Char) ∉ p := by
    intro p hp
    rw [List.mem_map] at hp
    obtain ⟨n, _, rfl⟩ := hp
    intro hdot
    have := decChars_all_digit hdot
    simp at this
  have hsplit : splitOnChar '.' (strOfSegs segs) = segs.map decChars := by
    unfold strOfSegs
    exact splitOnChar_joinSep (by simpa using h1) hfree
  have hpos : 0 < segs.length := List.length_pos.mpr h1
  have hzero : (['0'] : List Char) = decChars 0 := rfl
  simp only [fpvParse]
  rw [hsplit, List.length_map]
  rw [if_neg (by omega)]
  rw [hzero, getD_map, getD_map, getD_map, getD_map,
    decParseU16_decChars (padSeg_lt h3 0), decParseU16_decChars (padSeg_lt h3 1),
    decParseU16_decChars (padSeg_lt h3 2), decParseU16_decChars (padSeg_lt h3 3)]
  rfl

/-- More than four segments make the parse fail. -/
theorem fpvParse_too_many_segments {l : List Char}
    (h : 4 < (splitOnChar '.' l).length) : fpvParse l = none := by
  simp only [fpvParse]
  rw [if_pos (Or.inr h)]

/-- If any segment fails the 16-bit decimal parse, the whole parse fails. -/
theorem fpvParse_segment_fail {l : List Char} {p : List Char}
    (hp : p ∈ splitOnChar '.' l) (hfail : decParseU16 p = none) :
    fpvParse l = none := by
  by_cases hlen : (splitOnChar '.' l).length < 1 ∨ 4 < (splitOnChar '.' l).length
  · simp only [fpvParse]
    rw [if_pos hlen]
  · push_neg at hlen
    obtain ⟨hge, hle⟩ := hlen
    obtain ⟨i, hi, hieq⟩ := List.mem_iff_getElem.mp hp
    have hgd : (splitOnChar '.' l).getD i ['0'] = p := by
      rw [List.getD_eq_getElem _ _ hi, hieq]
    simp only [fpvParse]
    rw [if_neg (by omega)]
    have hi4 : i < 4 := by omega
    interval_cases i
    · rw [hgd, hfail]; rfl
    · rw [hgd, hfail]
      cases decParseU16 ((splitOnChar '.' l).getD 0 ['0']) <;> rfl
    · rw [hgd, hfail]
      cases decParseU16 ((splitOnChar '.' l).getD 0 ['0']) <;>
        cases decParseU16 ((splitOnChar '.' l).getD 1 ['0']) <;> rfl
    · rw [hgd, hfail]
      cases decParseU16 ((splitOnChar '.' l).getD 0 ['0']) <;>
        cases decParseU16 ((splitOnChar '.' l).getD 1 ['0']) <;>
          cases decParseU16 ((splitOnChar '.' l).getD 2 ['0']) <;> rfl

/-! ## Claim C8 -/

/-- Claim C8 (confirmed): every dotted string of 1-4 canonically rendered
16-bit segments parses with absent trailing segments defaulting to 0, and the
parsed value formats as the canonical four-segment string (so parse ∘ format
is the identity on in-range values, and `"16.0"` yields `{16,0,0,0}` which
formats as `"16.0.0.0"`); strings with more than 4 segments, or with a
negative, non-numeric, or 16-bit-overflowing segment, are rejected. -/
theorem c8_version_parse_format_roundtrip :
    (∀ segs : List Nat, segs ≠ [] → segs.length ≤ 4 → (∀ n ∈ segs, n < 65536) →
      fpvParse (strOfSegs segs) = some (padFPV segs) ∧
      fpvFmt (padFPV segs) = strOfSegs (padSegs4 segs)) ∧
    (∀ v : FourPointVersion, v.major < 65536 → v.minor < 65536 →
      v.revision < 65536 → v.build < 65536 → fpvParse (fpvFmt v) = some v) ∧
    fpvParseS "16.0" = some ⟨16, 0, 0, 0⟩ ∧
    fpvFmtS ⟨16, 0, 0, 0⟩ = "16.0.0.0" ∧
    (∀ l : List Char, 4 < (splitOnChar '.' l).length → fpvParse l = none) ∧
    (∀ l p : List Char, p ∈ splitOnChar '.' l → decParseU16 p = none →
      fpvParse l = none) ∧
    (∀ p : List Char, '-' ∈ p → decParseU16 p = none) ∧
    (∀ n : Nat, 65536 ≤ n → decParseU16 (decChars n) = none) ∧
    fpvParseS "" = none ∧ fpvParseS "1.2.3.4.5" = none ∧
    fpvParseS "1.a" = none ∧ fpvParseS "-1.0.0.0" = none ∧
    fpvParseS "65536.0.0.0" = none := by
  refine ⟨?_, ?_, by decide, by decide, ?_, ?_, ?_, ?_,
    by decide, by decide, by decide, by decide, by decide⟩
  · intro segs h1 h2 h3
    refine ⟨fpvParse_strOfSegs h1 h2 h3, ?_⟩
    simp [fpvFmt, padFPV, strOfSegs, padSegs4, joinSep]
  · intro v hma hmi hre hbu
    obtain ⟨ma, mi, re, bu⟩ := v
    have hseg : ∀ n ∈ [ma, mi, re, bu], n < 65536 := by
      intro n hn
      simp at hn
      rcases hn with rfl | rfl | rfl | rfl <;> assumption
    have h := @fpvParse_strOfSegs [ma, mi, re, bu] (by simp) (by simp) hseg
    have heq : strOfSegs [ma, mi, re, bu] = fpvFmt ⟨ma, mi, re, bu⟩ := by
      simp [fpvFmt, strOfSegs, joinSep]
    rw [heq] at h
    exact h.trans (by simp [padFPV])
  · exact fun l h => fpvParse_too_many_segments h
  · exact fun l p hp hfail => fpvParse_segment_fail hp hfail
  · exact fun p h => decParseU16_of_mem_dash h
  · exact fun n h => decParseU16_decChars_overflow h

/-- Witness for C8: the positive clause applied at the concrete input
`[16, 0]`, i.e. the string `"16.0"`. -/
theorem c8_version_parse_format_roundtrip_witness :
    fpvParse (strOfSegs [16, 0]) = some ⟨16, 0, 0, 0⟩ ∧
    fpvFmt (padFPV [16, 0]) = strOfSegs (padSegs4 [16, 0]) :=
  c8_version_parse_format_roundtrip.1 [16, 0] (by decide) (by decide) (by decide)

/-! ## Claim C7 -/

/-- Claim C7 (confirmed): a `VersionRange` encodes to no tokens iff both bounds
are absent; otherwise it encodes to exactly `"-version"` and the comma-joined
compound string (`"{lower},{upper}"`, `"{lower},"`, or `",{upper}"`). -/
theorem c7_version_range_tokens :
    (∀ r : VersionRange, r.populate_args = [] ↔ r.lower = none ∧ r.upper = none) ∧
    (∀ l u : FourPointVersion, (VersionRange.mk (some l) (some u)).populate_args
      = ["-version", (fpvFmt l ++ ',' :: fpvFmt u).asString]) ∧
    (∀ l : FourPointVersion, (VersionRange.mk (some l) none).populate_args
      = ["-version", (fpvFmt l ++ [',']).asString]) ∧
    (∀ u : FourPointVersion, (VersionRange.mk none (some u)).populate_args
      = ["-version", (',' :: fpvFmt u).asString]) ∧
    (VersionRange.mk none none).populate_args = [] := by
  refine ⟨?_, ?_, ?_, ?_, rfl⟩
  · rintro ⟨lo, hi⟩
    cases lo <;> cases hi <;>
      simp [VersionRange.populate_args, VersionRange.fmtChars, List.append_eq_nil]
  · intro l u
    simp [VersionRange.populate_args, VersionRange.fmtChars, List.append_eq_nil]
  · intro l
    simp [VersionRange.populate_args, VersionRange.fmtChars, List.append_eq_nil]
  · intro u
    simp [VersionRange.populate_args, VersionRange.fmtChars]

/-- Witness for C7: the lower-bound-only clause at `15.0.0.0`, giving the
token `"15.0.0.0,"`. -/
theorem c7_version_range_tokens_witness :
    (VersionRange.mk (some ⟨15, 0, 0, 0⟩) none).populate_args
      = ["-version", "15.0.0.0,"] :=
  (c7_version_range_tokens.2.2.1 ⟨15, 0, 0, 0⟩).trans (by decide)

/-! ## Claim C6 -/

/-- Claim C6 (refuted as stated): the claim asserts that an `isPrerelease`
field arriving as the JSON string `"False"` decodes to the flag `false`.  But
`InstallInfo.is_prerelease` (src/lib.rs line 62) is a plain derived `bool`
with no custom `deserialize_with`, so a string wire value there fails the
decode; only a native JSON boolean is accepted.  (The string-boolean coercion
is wired only to `productMilestoneIsPreRelease`, src/lib.rs lines 90-92.) -/
theorem c6_is_prerelease_counterexample :
    deserializePlainBool (.jstring "False") = none ∧
    deserializePlainBool (.jstring "False") ≠ some false ∧
    deserializePlainBool (.jbool false) = some false := by
  decide

/-- Claim C6 (amended): the case-insensitive whitespace-trimmed string-boolean
decode applies to the one field that uses `deserialize_uppercase_bool`,
`productMilestoneIsPreRelease` — there the string `"False"` decodes to
`false`, mixed-case `" TrUE\t"` decodes to `true`, `"yes"` (and any non-string
wire value) fails as malformed, and in general a string decodes to `b` exactly
when its lowercased, trimmed form is the literal `"true"`/`"false"`.  The
`isPrerelease` field is a plain `bool`: every JSON string there fails the
decode and every native boolean is taken as is. -/
theorem c6_string_bool_field_amended :
    deserializeUppercaseBoolField (.jstring "False") = some false ∧
    deserializeUppercaseBoolField (.jstring " TrUE\t") = some true ∧
    deserializeUppercaseBoolField (.jstring "yes") = none ∧
    (∀ b : Bool, deserializeUppercaseBoolField (.jbool b) = none) ∧
    deserializeUppercaseBoolField .jnull = none ∧
    (∀ s : String, deserializeUppercaseBoolField (.jstring s) = some true ↔
      lowerTrim s = "true".toList) ∧
    (∀ s : String, deserializeUppercaseBoolField (.jstring s) = some false ↔
      lowerTrim s = "false".toList) ∧
    (∀ s : String, deserializeUppercaseBoolField (.jstring s) = none ↔
      lowerTrim s ≠ "true".toList ∧ lowerTrim s ≠ "false".toList) ∧
    (∀ s : String, deserializePlainBool (.jstring s) = none) ∧
    (∀ b : Bool, deserializePlainBool (.jbool b) = some b) := by
  have key : ∀ s : String,
      (uppercaseBoolParse s = some true ↔ lowerTrim s = "true".toList) ∧
      (uppercaseBoolParse s = some false ↔ lowerTrim s = "false".toList) ∧
      (uppercaseBoolParse s = none ↔
        lowerTrim s ≠ "true".toList ∧ lowerTrim s ≠ "false".toList) := by
    intro s
    by_cases h1 : lowerTrim s = ['t', 'r', 'u', 'e']
    · by_cases h2 : lowerTrim s = ['f', 'a', 'l', 's', 'e']
      · exact absurd (h1.symm.trans h2) (by decide)
      · refine ⟨?_, ?_, ?_⟩ <;> simp [uppercaseBoolParse, h1, h2]
    · by_cases h2 : lowerTrim s = ['f', 'a', 'l', 's', 'e']
      · refine ⟨?_, ?_, ?_⟩ <;> simp [uppercaseBoolParse, h1, h2]
      · refine ⟨?_, ?_, ?_⟩ <;> simp [uppercaseBoolParse, h1, h2]
  exact ⟨by decide, by decide, by decide, fun b => by cases b <;> rfl, rfl,
    fun s => (key s).1, fun s => (key s).2.1, fun s => (key s).2.2,
    fun s => rfl, fun b => rfl⟩

/-- Witness for the amended C6: the `some false` clause applied at a concrete
mixed-case whitespace-padded string in the `productMilestoneIsPreRelease`
field position. -/
theorem c6_string_bool_field_witness :
    deserializeUppercaseBoolField (.jstring "  fAlSe ") = some false :=
  (c6_string_bool_field_amended.2.2.2.2.2.2.1 "  fAlSe ").mpr (by decide)

/-! ## Claim C3 -/

/-- Claim C3 (refuted as stated): the claim puts the product and component
allowlists before the require-any switch, but `Modern::populate_args` emits
`-requiresAny` before `-products`: with `products = ["*"]` and
`requires_any = true` the encoded tokens are `["-requiresAny", "-products", "*"]`,
not the claimed `["-products", "*", "-requiresAny"]`. -/
theorem c3_modern_order_counterexample :
    Modern.populate_args ⟨⟨false⟩, ⟨false⟩, ⟨["*"]⟩, ⟨[]⟩, ⟨true⟩, ⟨none, none⟩⟩
      = ["-requiresAny", "-products", "*"] ∧
    Modern.populate_args ⟨⟨false⟩, ⟨false⟩, ⟨["*"]⟩, ⟨[]⟩, ⟨true⟩, ⟨none, none⟩⟩
      ≠ ["-products", "*", "-requiresAny"] := by
  decide

/-- Claim C3 (amended): for every `Modern` selection the encoder emits its
tokens in the fixed order include-incomplete switch, prerelease switch,
require-any switch, product allowlist (marker immediately followed by each
element in order), component allowlist (likewise), version range token. -/
theorem c3_modern_order_amended (m : Modern) :
    m.populate_args
      = (if m.all.v then ["-all"] else [])
        ++ (if m.prerelease.v then ["-prerelease"] else [])
        ++ (if m.requires_any.v then ["-requiresAny"] else [])
        ++ (if m.products.v.isEmpty then [] else "-products" :: m.products.v)
        ++ (if m.requires.v.isEmpty then [] else "-requires" :: m.requires.v)
        ++ m.version.populate_args :=
  rfl

/-- Witness for the amended C3 at a concrete selection. -/
theorem c3_modern_order_witness :
    Modern.populate_args ⟨⟨true⟩, ⟨true⟩, ⟨["a", "b"]⟩, ⟨["x"]⟩, ⟨false⟩, ⟨none, none⟩⟩
      = ["-all", "-prerelease", "-products", "a", "b", "-requires", "x"] :=
  (c3_modern_order_amended _).trans (by decide)

/-! ## Claim C4 -/

/-- Claim C4 (refuted as stated): the claim says argv ends with the trailing
tokens `"-utf8", "-format", "json"` in that order, but `run_custom_path`
pushes `cmd.args(&["-format", "json", "-utf8"])`: the default configuration's
argv is `["-products", "*", "-format", "json", "-utf8"]`, which does not have
the claimed suffix. -/
theorem c4_trailing_tokens_counterexample :
    ¬ List.IsSuffix ["-utf8", "-format", "json"] (Config.args Config.new) ∧
    Config.args Config.new = ["-products", "*", "-format", "json", "-utf8"] := by
  decide

/-- Claim C4 (amended): for every configuration, the argv handed to the
external process consists of the selection tokens followed by exactly the
three fixed trailing tokens `"-format"`, `"json"`, `"-utf8"`, in that order. -/
theorem c4_trailing_tokens_amended (c : Config) :
    List.IsSuffix ["-format", "json", "-utf8"] (Config.args c) := by
  obtain ⟨pre, prods, reqs, ra, ver, lat⟩ := c
  exact ⟨(if pre then ["-prerelease"] else [])
      ++ "-products" :: ((if prods.isEmpty then ["*"] else prods)
      ++ ((if reqs.isEmpty then [] else "-requires" :: reqs)
      ++ ((if ra then ["-requiresAny"] else [])
      ++ ((match ver with
          | some (s, e) =>
            ["-version", ('[' :: fpvFmt s ++ ',' :: fpvFmt e ++ [')']).asString]
          | none => [])
      ++ (if lat then ["-latest"] else []))))),
    by simp [Config.args, List.append_assoc]⟩

/-! ## Claim C5 -/

/-- Claim C5 (refuted as stated): the claim says an empty product allowlist
encodes to no `-products` marker, but `Config::run_custom_path`
unconditionally emits the marker and encodes an empty whitelist as the
universal wildcard: the default configuration (whose product whitelist is
empty) produces an argv containing `"-products"`. -/
theorem c5_empty_allowlist_counterexample :
    Config.new.products = [] ∧ "-products" ∈ Config.args Config.new := by
  decide

/-- Claim C5 (amended): the `Products` encoder of the selection module behaves
as claimed (empty list → no marker; `["*"]` → marker then exactly `"*"`), but
`Config::run_custom_path` always emits the marker and encodes an empty
product whitelist identically to the explicit universal wildcard `["*"]`. -/
theorem c5_allowlist_amended :
    (∀ p : Products, p.v = [] → Products.populate_args p = []) ∧
    Products.populate_args ⟨["*"]⟩ = ["-products", "*"] ∧
    (∀ c : Config, c.products = [] →
      List.IsInfix ["-products", "*"] (Config.args c)) ∧
    (∀ c : Config,
      Config.args { c with products := [] } = Config.args { c with products := ["*"] }) := by
  refine ⟨?_, by decide, ?_, ?_⟩
  · intro p hp
    simp [Products.populate_args, hp]
  · intro c hc
    exact ⟨(if c.prerelease then ["-prerelease"] else []),
      (if c.requires.isEmpty then [] else "-requires" :: c.requires)
        ++ ((if c.requires_any then ["-requiresAny"] else [])
        ++ ((match c.version with
            | some (s, e) =>
              ["-version", ('[' :: fpvFmt s ++ ',' :: fpvFmt e ++ [')']).asString]
            | none => [])
        ++ ((if c.latest then ["-latest"] else [])
        ++ ["-format", "json", "-utf8"]))),
      by simp [Config.args, hc, List.append_assoc]⟩
  · intro c
    rfl

/-- Witness for the amended C5 at concrete inputs. -/
theorem c5_allowlist_witness :
    Products.populate_args ⟨[]⟩ = [] ∧
    List.IsInfix ["-products", "*"] (Config.args Config.new) :=
  ⟨c5_allowlist_amended.1 ⟨[]⟩ rfl, c5_allowlist_amended.2.2.1 Config.new rfl⟩

/-! ## Claim C9 -/

/-- Claim C9 (confirmed): discovery tries its candidate executable locations in
declared order and short-circuits at the first success; a candidate failing
with `NotFound` falls through to the next, any other failure is surfaced
immediately without trying further candidates, and if every candidate fails
with `NotFound` the aggregate result is that not-found error. -/
theorem c9_discovery_fallback {R : Type}
    (gkf : KnownFolderId → Except IoError String)
    (run : String → Except IoError R) :
    (∀ base v, gkf .programData = .ok base → run (chocoPath base) = .ok v →
      run_default_path gkf run = .ok v) ∧
    (∀ base e base2, gkf .programData = .ok base →
      run (chocoPath base) = .error e → e.kind = .notFound →
      gkf .programFilesX86 = .ok base2 →
      run_default_path gkf run = run (installerPath base2)) ∧
    (∀ base e, gkf .programData = .ok base → run (chocoPath base) = .error e →
      e.kind ≠ .notFound → run_default_path gkf run = .error e) ∧
    (∀ base e base2 e2, gkf .programData = .ok base →
      run (chocoPath base) = .error e → e.kind = .notFound →
      gkf .programFilesX86 = .ok base2 → run (installerPath base2) = .error e2 →
      run_default_path gkf run = .error e2) := by
  refine ⟨?_, ?_, ?_, ?_⟩
  · intro base v h1 h2
    simp [run_default_path, h1, h2]
  · intro base e base2 h1 h2 h3 h4
    simp [run_default_path, h1, h2, h3, h4]
  · intro base e h1 h2 h3
    simp [run_default_path, h1, h2, h3]
  · intro base e base2 e2 h1 h2 h3 h4 h5
    simp [run_default_path, h1, h2, h3, h4, h5]

/-- Witness for C9: with both known folders resolving, the chocolatey
candidate missing, and the installer candidate succeeding with `7`, discovery
returns `7`. -/
theorem c9_discovery_fallback_witness :
    run_default_path gkfBothOk runSecondOk = Except.ok 7 :=
  ((c9_discovery_fallback gkfBothOk runSecondOk).2.1 "C:\\ProgramData"
    ⟨IoErrorKind.notFound, 0⟩ "C:\\Program Files (x86)" rfl rfl rfl rfl).trans rfl

/-! ## Claim C10 -/

/-- Claim C10 (confirmed): for every decoded `InstallCatalog`, the public
accessor `product_milestone_is_pre_release` never returns a value — it always
panics (`unimplemented!()`), even though the underlying
`productMilestoneIsPreRelease` field is stored in the record and its
string-boolean wire encoding decodes fine. -/
theorem c10_catalog_accessor_panics :
    (∀ c : InstallCatalog,
      c.product_milestone_is_pre_release = PanicOr.panicked "not implemented") ∧
    (∀ (c : InstallCatalog) (b : Bool),
      ({ c with productMilestoneIsPreRelease := b }
        : InstallCatalog).productMilestoneIsPreRelease = b ∧
      ({ c with productMilestoneIsPreRelease := b }
        : InstallCatalog).product_milestone_is_pre_release
          = PanicOr.panicked "not implemented") ∧
    (∀ b : Bool, uppercaseBoolParse (serializeUppercaseBool b) = some b) :=
  ⟨fun _ => rfl, fun _ _ => ⟨rfl, rfl⟩, fun b => by cases b <;> decide⟩

/-! ## Claim C1 -/

/-- Claim C1 (refuted as stated): the claim says a non-zero exit status yields
the typed error `NonZeroExit{c}`; in the code `run_custom_path` instead runs
`assert!(output.status.success())`, so at exit code 1 the outcome is a panic,
not an error value returned to the caller. -/
theorem c1_nonzero_exit_counterexample :
    run_custom_path_result utf8AsciiDecode parseInstallsNone (.ok ⟨1, []⟩)
      = RunResult.panicked "assertion failed: output.status.success()" ∧
    (run_custom_path_result utf8AsciiDecode parseInstallsNone
      (.ok ⟨1, []⟩)).isErrValue = false :=
  ⟨rfl, rfl⟩

/-- Claim C1 (amended): for every invocation whose spawned process exits with
a non-zero status, `run_custom_path` panics on the status assertion — and the
captured stdout is not decoded: the outcome does not depend on the UTF-8 or
JSON collaborators at all. -/
theorem c1_nonzero_exit_amended (u u' : List Nat → Option String)
    (p p' : String → Option (List InstallInfo)) (out : ProcessOutput)
    (h : out.exitCode ≠ 0) :
    run_custom_path_result u p (.ok out)
      = RunResult.panicked "assertion failed: output.status.success()" ∧
    run_custom_path_result u p (.ok out) = run_custom_path_result u' p' (.ok out) := by
  constructor <;> simp [run_custom_path_result, processVswhereOutput, h]

/-- Witness for the amended C1 at exit code 2. -/
theorem c1_nonzero_exit_witness :
    run_custom_path_result utf8AsciiDecode parseInstallsNone (.ok ⟨2, [65]⟩)
      = RunResult.panicked "assertion failed: output.status.success()" :=
  (c1_nonzero_exit_amended utf8AsciiDecode utf8AsciiDecode parseInstallsNone
    parseInstallsNone ⟨2, [65]⟩ (by decide)).1

/-! ## Claim C2 -/

/-- Claim C2 (refuted as stated): the claim says invalid UTF-8 or invalid JSON
on a successful exit yields the error value `MalformedOutput{reason}` and is
never raised as a panic; in the code both decode failures are `expect` calls,
which panic: at exit code 0 with the non-UTF-8 stdout `[255]` the outcome is
the panic `"vswhere returned invalid UTF-8"`, and with the non-JSON stdout
`"hi"` it is the panic `"vswhere returned invalid JSON"` — neither is an
error value. -/
theorem c2_malformed_output_counterexample :
    run_custom_path_result utf8AsciiDecode parseInstallsNone (.ok ⟨0, [255]⟩)
      = RunResult.panicked "vswhere returned invalid UTF-8" ∧
    (run_custom_path_result utf8AsciiDecode parseInstallsNone
      (.ok ⟨0, [255]⟩)).isErrValue = false ∧
    run_custom_path_result utf8AsciiDecode parseInstallsNone (.ok ⟨0, [104, 105]⟩)
      = RunResult.panicked "vswhere returned invalid JSON" ∧
    (run_custom_path_result utf8AsciiDecode parseInstallsNone
      (.ok ⟨0, [104, 105]⟩)).isErrValue = false :=
  ⟨rfl, rfl, rfl, rfl⟩

/-- Claim C2 (amended): on a successful exit, a stdout that fails UTF-8
decoding makes `run_custom_path` panic with `"vswhere returned invalid UTF-8"`,
and a decoded string that fails JSON decoding makes it panic with
`"vswhere returned invalid JSON"`; no error value is returned in either case. -/
theorem c2_malformed_output_amended (u : List Nat → Option String)
    (p : String → Option (List InstallInfo)) (out : ProcessOutput)
    (h0 : out.exitCode = 0) :
    (u out.stdout = none →
      run_custom_path_result u p (.ok out)
        = RunResult.panicked "vswhere returned invalid UTF-8") ∧
    (∀ j, u out.stdout = some j → p j = none →
      run_custom_path_result u p (.ok out)
        = RunResult.panicked "vswhere returned invalid JSON") := by
  constructor
  · intro hu
    simp [run_custom_path_result, processVswhereOutput, h0, hu]
  · intro j hu hp
    simp [run_custom_path_result, processVswhereOutput, h0, hu, hp]

/-- Witness for the amended C2 with an always-failing UTF-8 collaborator. -/
theorem c2_malformed_output_witness :
    run_custom_path_result (fun _ => none) parseInstallsNone (.ok ⟨0, []⟩)
      = RunResult.panicked "vswhere returned invalid UTF-8" :=
  (c2_malformed_output_amended (fun _ => none) parseInstallsNone ⟨0, []⟩ rfl).1 rfl

end VswhereRs
